import Mathlib

/-!
Shallow embedding of `src/main.c` (a C + SDL2 implementation of Conway's
Game of Life) and verification of the specification's claims about it.

Modelling conventions:
* `uint8_t` cell values are `Nat` (only 0/1 ever written; liveness tests in
  the C source are truthiness tests, modelled as `≠ 0`).
* The two `BOARD_SIDE × BOARD_SIDE` arrays are total functions
  `Nat → Nat → Nat`; the C code only indexes them in range.
* The `uint8_t` field `deltaTime` is a `Nat` kept below 256; the C `--`/`++`
  operators become explicit arithmetic modulo 256.
* SDL rendering, window management and process exit are external I/O and
  carry no board state; only the state-mutating parts of each C function
  are embedded.  The per-cell random draws of `random()` are modelled by an
  explicit stream `Nat → Nat` consumed in program order.
-/

/-- `BOARD_SIDE` from the C source (side length of the square board). -/
def BOARD_SIDE : Nat := 200

/-- `DEFAULT_DELTA_TIME` from the C source (initial tick rate). -/
def DEFAULT_DELTA_TIME : Nat := 60

/-- `SDL_BUTTON_LEFT` (SDL2 constant tested by the mouse handler). -/
def SDL_BUTTON_LEFT : Nat := 1

/-- `SDL_BUTTON_RIGHT` (SDL2 constant; any non-left button takes the else branch). -/
def SDL_BUTTON_RIGHT : Nat := 3

/-- SDL2 keycode of the minus key. -/
def SDLK_MINUS : Nat := 45

/-- SDL2 keycode of the plus key. -/
def SDLK_PLUS : Nat := 43

/-- SDL2 keycode of the letter p. -/
def SDLK_p : Nat := 112

/-- A board: cell values indexed by row then column (C: `uint8_t [200][200]`). -/
abbrev Board : Type := Nat → Nat → Nat

/-- Functional update of one cell of a board (the effect of a C array store). -/
def writeCell (b : Board) (row col v : Nat) : Board :=
  fun r c => if r = row ∧ c = col then v else b r c

/-- `struct gameOfLife_t`: tick rate, pause flag, displayed board, work board. -/
structure gameOfLife_t where
  deltaTime : Nat
  simulationPaused : Bool
  board : Board
  workBoard : Board

/-- `struct SDL_Color`. -/
structure SDL_Color where
  r : Nat
  g : Nat
  b : Nat
  a : Nat

/-- The mutable globals of the program relevant to the claims:
`gameColors`, `backgroundColor` and the `gameOfLife` state. -/
structure World where
  gameColors : SDL_Color
  backgroundColor : SDL_Color
  game : gameOfLife_t

/-- `GetRowByIndex` from the C source. -/
def GetRowByIndex (index : Nat) : Nat := index / BOARD_SIDE

/-- `GetColumnByIndex` from the C source. -/
def GetColumnByIndex (index : Nat) : Nat := index % BOARD_SIDE

/-- The double `for` loop of `ApplyLifeRule`: count the truthy cells of the
3×3 block centred at `(row, col)` (the centre cell included, exactly as the
C loop does).  The C loop runs `neighbourRow` from `row - 1` to `row + 1`
and `neighbourCol` from `col - 1` to `col + 1`. -/
def lifeFormsCount (b : Board) (row col : Nat) : Nat :=
  (List.range 3).foldl (fun acc dr =>
    (List.range 3).foldl (fun acc2 dc =>
      if b (row - 1 + dr) (col - 1 + dc) ≠ 0 then acc2 + 1 else acc2) acc) 0

/-- The value `ApplyLifeRule` stores for an interior cell: the 3×3 count is
decremented once (C: `lifeForms--`, an `int`, so the decrement is exact) and
the result is compared against 2 and 3. -/
def lifeRuleVal (b : Board) (row col : Nat) : Nat :=
  if ((lifeFormsCount b row col : Int) - 1 < 2 ∨ (lifeFormsCount b row col : Int) - 1 > 3)
  then 0 else 1

/-- `ApplyLifeRule` from the C source: for `row` and `col` strictly inside
the board, count the 3×3 block, decrement once, and store 0 or 1 into the
work board; the boundary branches are empty (`/* to implement */`). -/
def ApplyLifeRule (gol : gameOfLife_t) (row col : Nat) : gameOfLife_t :=
  if 0 < row ∧ row < BOARD_SIDE - 1 then
    if 0 < col ∧ col < BOARD_SIDE - 1 then
      if ((lifeFormsCount gol.board row col : Int) - 1 < 2 ∨
          (lifeFormsCount gol.board row col : Int) - 1 > 3) then
        { gol with workBoard := writeCell gol.workBoard row col 0 }
      else
        { gol with workBoard := writeCell gol.workBoard row col 1 }
    else gol
  else gol

/-- The rule-application loop of `UpdateBoard`, folded over a list of flat
indices `i`, each dispatched as `ApplyLifeRule(gol, i / BOARD_SIDE, i % BOARD_SIDE)`. -/
def runRules (gol : gameOfLife_t) (l : List Nat) : gameOfLife_t :=
  l.foldl (fun acc i => ApplyLifeRule acc (GetRowByIndex i) (GetColumnByIndex i)) gol

/-- The `memcpy( gameOfLife->board, gameOfLife->workBoard, ... )` step of
`UpdateBoard`: the displayed board becomes a copy of the work board. -/
def commitBoard (gol : gameOfLife_t) : gameOfLife_t :=
  { gol with board := gol.workBoard }

/-- The board-mutating part of `UpdateBoard` from the C source: run
`ApplyLifeRule` for every flat index from `BOARD_SIDE` to
`BOARD_SIDE * BOARD_SIDE - 1`, then `memcpy` the work board into the
displayed board.  (The SDL drawing calls around it touch no board state.) -/
def UpdateBoard (gol : gameOfLife_t) : gameOfLife_t :=
  commitBoard (runRules gol (List.range' BOARD_SIDE (BOARD_SIDE * BOARD_SIDE - BOARD_SIDE)))

/-- The tick phase of one `SimulationLoop` iteration:
`if (!gameOfLife->simulationPaused) UpdateBoard(gameOfLife);`. -/
def tickPhase (gol : gameOfLife_t) : gameOfLife_t :=
  if gol.simulationPaused then gol else UpdateBoard gol

/-- The per-iteration `SDL_Delay` argument: `1000 / gameOfLife->deltaTime`,
with no guard on the divisor (C integer division; a zero divisor is
undefined behaviour in the source). -/
def loopDelayMs (gol : gameOfLife_t) : Nat := 1000 / gol.deltaTime

/-- The state-mutating branches of `EvaluateKey` from the C source.
The escape/q branch terminates the process and the F11 branch toggles the
window mode; neither touches `gameOfLife_t`, so they are identities here.
`deltaTime` is `uint8_t`, so `--` and `++` act modulo 256. -/
def EvaluateKey (sym : Nat) (gol : gameOfLife_t) : gameOfLife_t :=
  if sym = SDLK_p then { gol with simulationPaused := !gol.simulationPaused }
  else if sym = SDLK_MINUS then { gol with deltaTime := (gol.deltaTime + 255) % 256 }
  else if sym = SDLK_PLUS then { gol with deltaTime := (gol.deltaTime + 1) % 256 }
  else gol

/-- The `SDL_MOUSEBUTTONDOWN` case of `SimulationLoop`: pick `gameColors`
for the left button and `backgroundColor` otherwise, overwrite its `r`, `g`,
`b` components with three fresh `random() % 256` draws (`d1`, `d2`, `d3` are
the raw draws, in order), then call `UpdateBoard` unconditionally. -/
def handleMouseButtonDown (button d1 d2 d3 : Nat) (w : World) : World :=
  if button = SDL_BUTTON_LEFT then
    { w with gameColors := { w.gameColors with r := d1 % 256, g := d2 % 256, b := d3 % 256 },
             game := UpdateBoard w.game }
  else
    { w with backgroundColor := { w.backgroundColor with r := d1 % 256, g := d2 % 256, b := d3 % 256 },
             game := UpdateBoard w.game }

/-- The `gameOfLife` value built in `main`: designated initializers set
`deltaTime` and `simulationPaused`; the two boards are zero-initialized by
C aggregate-initialization semantics. -/
def initialGameOfLife : gameOfLife_t :=
  { deltaTime := DEFAULT_DELTA_TIME
    simulationPaused := false
    board := fun _ _ => 0
    workBoard := fun _ _ => 0 }

/-- One iteration of the seeding loop of `InitializeSimulation`: at flat
index `i` the draw is `random() % 10` (here `stream i % 10`) and cell
`board[GetColumnByIndex(i)][GetRowByIndex(i)]` is set to 1 iff the draw is 0. -/
def seedStep (stream : Nat → Nat) (gol : gameOfLife_t) (i : Nat) : gameOfLife_t :=
  if stream i % 10 = 0 then
    { gol with board := writeCell gol.board (GetColumnByIndex i) (GetRowByIndex i) 1 }
  else
    { gol with board := writeCell gol.board (GetColumnByIndex i) (GetRowByIndex i) 0 }

/-- The seeding loop of `InitializeSimulation`, folded over a list of flat
indices in program order. -/
def runSeed (stream : Nat → Nat) (gol : gameOfLife_t) (l : List Nat) : gameOfLife_t :=
  l.foldl (seedStep stream) gol

/-- `InitializeSimulation` from the C source: one random draw per flat index
`i` in `[0, BOARD_SIDE * BOARD_SIDE)`, in order.  (The `srand`/`printf`
calls carry no board state.) -/
def InitializeSimulation (stream : Nat → Nat) (gol : gameOfLife_t) : gameOfLife_t :=
  runSeed stream gol (List.range (BOARD_SIDE * BOARD_SIDE))

/-- Spec-side glossary definition: the live-neighbor count of a cell, i.e.
the number of alive cells among the 8 cells surrounding it. -/
def liveNeighborCount (b : Board) (row col : Nat) : Nat :=
  (if b (row - 1) (col - 1) ≠ 0 then 1 else 0) +
  (if b (row - 1) col ≠ 0 then 1 else 0) +
  (if b (row - 1) (col + 1) ≠ 0 then 1 else 0) +
  (if b row (col - 1) ≠ 0 then 1 else 0) +
  (if b row (col + 1) ≠ 0 then 1 else 0) +
  (if b (row + 1) (col - 1) ≠ 0 then 1 else 0) +
  (if b (row + 1) col ≠ 0 then 1 else 0) +
  (if b (row + 1) (col + 1) ≠ 0 then 1 else 0)

/-- The interior-cell rule the code actually implements, stated in terms of
the 8-neighbor live count and the cell's own state: a live cell stays alive
iff it has 2 or 3 live neighbors; a dead cell becomes alive iff it has 3 or
4 live neighbors (the unconditional `lifeForms--` shifts the window for a
dead centre cell). -/
def actualNextState (b : Board) (row col : Nat) : Nat :=
  if b row col ≠ 0 then
    if liveNeighborCount b row col = 2 ∨ liveNeighborCount b row col = 3 then 1 else 0
  else
    if liveNeighborCount b row col = 3 ∨ liveNeighborCount b row col = 4 then 1 else 0

/-- Interior coordinates in the sense of `ApplyLifeRule`'s guards. -/
def Interior (row col : Nat) : Prop :=
  0 < row ∧ row < BOARD_SIDE - 1 ∧ 0 < col ∧ col < BOARD_SIDE - 1

instance (row col : Nat) : Decidable (Interior row col) := by
  unfold Interior; infer_instance

/-- Boundary coordinates: first or last row or column. -/
def Boundary (row col : Nat) : Prop :=
  row = 0 ∨ row = BOARD_SIDE - 1 ∨ col = 0 ∨ col = BOARD_SIDE - 1

instance (row col : Nat) : Decidable (Boundary row col) := by
  unfold Boundary; infer_instance

/-- Both grids of the board storage are fully dead. -/
def AllDead (gol : gameOfLife_t) : Prop :=
  (∀ r c, gol.board r c = 0) ∧ (∀ r c, gol.workBoard r c = 0)

lemma foldl_count (p : Nat → Prop) [DecidablePred p] (l : List Nat) (acc : Nat) :
    l.foldl (fun a x => if p x then a + 1 else a) acc
      = acc + (l.map (fun x => if p x then 1 else 0)).sum := by
  induction l generalizing acc with
  | nil => simp
  | cons x xs ih =>
      rw [List.foldl_cons, ih, List.map_cons, List.sum_cons]
      split <;> omega

lemma foldl_add (f : Nat → Nat) (l : List Nat) (acc : Nat) :
    l.foldl (fun a x => a + f x) acc = acc + (l.map f).sum := by
  induction l generalizing acc with
  | nil => simp
  | cons x xs ih =>
      rw [List.foldl_cons, ih, List.map_cons, List.sum_cons]
      omega

lemma lifeFormsCount_eq (b : Board) (row col : Nat) (hr : 0 < row) (hc : 0 < col) :
    lifeFormsCount b row col = liveNeighborCount b row col + (if b row col ≠ 0 then 1 else 0) := by
  have h1 : row - 1 + 1 = row := by omega
  have h2 : row - 1 + 2 = row + 1 := by omega
  have h3 : col - 1 + 1 = col := by omega
  have h4 : col - 1 + 2 = col + 1 := by omega
  unfold lifeFormsCount liveNeighborCount
  simp only [foldl_count, foldl_add]
  simp only [List.range_succ, List.range_zero, List.nil_append, List.cons_append,
    List.map_cons, List.map_nil, List.sum_cons, List.sum_nil]
  simp only [Nat.add_zero, Nat.zero_add, h1, h2, h3, h4]
  ring

lemma ApplyLifeRule_board (gol : gameOfLife_t) (r0 c0 : Nat) :
    (ApplyLifeRule gol r0 c0).board = gol.board := by
  unfold ApplyLifeRule
  split_ifs <;> rfl

lemma ApplyLifeRule_workBoard (gol : gameOfLife_t) (r0 c0 r c : Nat) :
    (ApplyLifeRule gol r0 c0).workBoard r c =
      if Interior r0 c0 ∧ r = r0 ∧ c = c0 then lifeRuleVal gol.board r0 c0
      else gol.workBoard r c := by
  unfold ApplyLifeRule lifeRuleVal writeCell Interior
  split_ifs <;> simp_all

lemma flat_div (r c : Nat) (h : c < BOARD_SIDE) :
    (BOARD_SIDE * r + c) / BOARD_SIDE = r := by
  unfold BOARD_SIDE at *; omega

lemma flat_mod (r c : Nat) (h : c < BOARD_SIDE) :
    (BOARD_SIDE * r + c) % BOARD_SIDE = c := by
  unfold BOARD_SIDE at *; omega

lemma runRules_cons (gol : gameOfLife_t) (i : Nat) (xs : List Nat) :
    runRules gol (i :: xs)
      = runRules (ApplyLifeRule gol (GetRowByIndex i) (GetColumnByIndex i)) xs := rfl

lemma runRules_board (l : List Nat) (gol : gameOfLife_t) :
    (runRules gol l).board = gol.board := by
  induction l generalizing gol with
  | nil => rfl
  | cons i xs ih => rw [runRules_cons, ih, ApplyLifeRule_board]

lemma Interior_col_lt (r c : Nat) (h : Interior r c) : c < BOARD_SIDE := by
  unfold Interior BOARD_SIDE at *; omega

lemma runRules_workBoard (l : List Nat) (gol : gameOfLife_t) (r c : Nat) :
    (runRules gol l).workBoard r c =
      if Interior r c ∧ (BOARD_SIDE * r + c) ∈ l then lifeRuleVal gol.board r c
      else gol.workBoard r c := by
  induction l generalizing gol with
  | nil => simp [runRules]
  | cons i xs ih =>
      rw [runRules_cons, ih, ApplyLifeRule_board, ApplyLifeRule_workBoard]
      unfold GetRowByIndex GetColumnByIndex
      by_cases hI : Interior r c
      · by_cases hm : BOARD_SIDE * r + c ∈ xs
        · simp [hI, hm]
        · by_cases heq : BOARD_SIDE * r + c = i
          · have hc : c < BOARD_SIDE := Interior_col_lt r c hI
            have hdiv : i / BOARD_SIDE = r := by rw [← heq, flat_div r c hc]
            have hmod : i % BOARD_SIDE = c := by rw [← heq, flat_mod r c hc]
            simp [hI, hm, heq, hdiv, hmod]
          · have hinner : ¬(Interior (i / BOARD_SIDE) (i % BOARD_SIDE)
                ∧ r = i / BOARD_SIDE ∧ c = i % BOARD_SIDE) := by
              rintro ⟨hI2, rfl, rfl⟩
              exact heq (Nat.div_add_mod i BOARD_SIDE)
            simp [hI, hm, heq, hinner]
      · have hinner : ¬(Interior (i / BOARD_SIDE) (i % BOARD_SIDE)
            ∧ r = i / BOARD_SIDE ∧ c = i % BOARD_SIDE) := by
          rintro ⟨hI2, rfl, rfl⟩
          exact hI hI2
        simp [hI, hinner]

lemma Interior_mem_range (r c : Nat) (h : Interior r c) :
    BOARD_SIDE * r + c ∈ List.range' BOARD_SIDE (BOARD_SIDE * BOARD_SIDE - BOARD_SIDE) := by
  rw [List.mem_range'_1]
  unfold Interior BOARD_SIDE at *
  omega

lemma commitBoard_workBoard (gol : gameOfLife_t) :
    (commitBoard gol).workBoard = gol.workBoard := rfl

lemma commitBoard_board (gol : gameOfLife_t) :
    (commitBoard gol).board = gol.workBoard := rfl

lemma UpdateBoard_workBoard (gol : gameOfLife_t) (r c : Nat) :
    (UpdateBoard gol).workBoard r c =
      if Interior r c then lifeRuleVal gol.board r c else gol.workBoard r c := by
  rw [UpdateBoard, commitBoard_workBoard, runRules_workBoard]
  by_cases hI : Interior r c
  · simp [hI, Interior_mem_range r c hI]
  · simp [hI]

lemma UpdateBoard_board (gol : gameOfLife_t) (r c : Nat) :
    (UpdateBoard gol).board r c =
      if Interior r c then lifeRuleVal gol.board r c else gol.workBoard r c := by
  rw [UpdateBoard, commitBoard_board, runRules_workBoard]
  by_cases hI : Interior r c
  · simp [hI, Interior_mem_range r c hI]
  · simp [hI]

lemma Boundary_not_Interior (r c : Nat) (h : Boundary r c) : ¬ Interior r c := by
  unfold Boundary Interior BOARD_SIDE at *
  omega

lemma liveNeighborCount_dead (b : Board) (hb : ∀ r c, b r c = 0) (row col : Nat) :
    liveNeighborCount b row col = 0 := by
  unfold liveNeighborCount
  simp [hb]

lemma lifeRuleVal_dead (b : Board) (hb : ∀ r c, b r c = 0) (row col : Nat)
    (hr : 0 < row) (hc : 0 < col) : lifeRuleVal b row col = 0 := by
  unfold lifeRuleVal
  rw [lifeFormsCount_eq b row col hr hc, liveNeighborCount_dead b hb row col]
  simp [hb]

lemma AllDead_step (gol : gameOfLife_t) (h : AllDead gol) : AllDead (UpdateBoard gol) := by
  obtain ⟨hb, hw⟩ := h
  constructor <;> intro r c
  · rw [UpdateBoard_board]
    split_ifs with hI
    · exact lifeRuleVal_dead gol.board hb r c hI.1 hI.2.2.1
    · exact hw r c
  · rw [UpdateBoard_workBoard]
    split_ifs with hI
    · exact lifeRuleVal_dead gol.board hb r c hI.1 hI.2.2.1
    · exact hw r c

lemma seedStep_board (stream : Nat → Nat) (gol : gameOfLife_t) (i x y : Nat) :
    (seedStep stream gol i).board x y =
      if x = i % BOARD_SIDE ∧ y = i / BOARD_SIDE then (if stream i % 10 = 0 then 1 else 0)
      else gol.board x y := by
  unfold seedStep GetColumnByIndex GetRowByIndex writeCell
  split_ifs <;> simp_all

lemma seedStep_workBoard (stream : Nat → Nat) (gol : gameOfLife_t) (i : Nat) :
    (seedStep stream gol i).workBoard = gol.workBoard := by
  unfold seedStep
  split_ifs <;> rfl

lemma runSeed_cons (stream : Nat → Nat) (gol : gameOfLife_t) (i : Nat) (xs : List Nat) :
    runSeed stream gol (i :: xs) = runSeed stream (seedStep stream gol i) xs := rfl

lemma runSeed_workBoard (stream : Nat → Nat) (l : List Nat) (gol : gameOfLife_t) :
    (runSeed stream gol l).workBoard = gol.workBoard := by
  induction l generalizing gol with
  | nil => rfl
  | cons i xs ih => rw [runSeed_cons, ih, seedStep_workBoard]

lemma runSeed_board (stream : Nat → Nat) (l : List Nat) (gol : gameOfLife_t) (x y : Nat)
    (hx : x < BOARD_SIDE) :
    (runSeed stream gol l).board x y =
      if (BOARD_SIDE * y + x) ∈ l then (if stream (BOARD_SIDE * y + x) % 10 = 0 then 1 else 0)
      else gol.board x y := by
  induction l generalizing gol with
  | nil => simp [runSeed]
  | cons i xs ih =>
      rw [runSeed_cons, ih]
      by_cases hm : BOARD_SIDE * y + x ∈ xs
      · simp [hm]
      · by_cases heq : BOARD_SIDE * y + x = i
        · have hdiv : i / BOARD_SIDE = y := by rw [← heq, flat_div y x hx]
          have hmod : i % BOARD_SIDE = x := by rw [← heq, flat_mod y x hx]
          rw [seedStep_board]
          simp [hm, heq, hdiv, hmod]
        · have hstep : ¬(x = i % BOARD_SIDE ∧ y = i / BOARD_SIDE) := by
            rintro ⟨rfl, rfl⟩
            exact heq (Nat.div_add_mod i BOARD_SIDE)
          rw [seedStep_board]
          simp [hm, heq, hstep]

/-- A concrete board with exactly two live cells, at rows/cols (4,4) and (4,5);
cell (5,5) is dead and has exactly 2 live neighbors. -/
def twoNeighborBoard : Board :=
  fun r c => if (r = 4 ∧ c = 4) ∨ (r = 4 ∧ c = 5) then 1 else 0

/-- A game state whose displayed board is `twoNeighborBoard`. -/
def twoNeighborGame : gameOfLife_t := { initialGameOfLife with board := twoNeighborBoard }

/-- C1 (counterexample): cell (5,5) of `twoNeighborBoard` is dead and has
exactly 2 live neighbors, yet `ApplyLifeRule` writes 0 (dead) for it — the
claimed table says a count of exactly 2 yields alive regardless of the
cell's own state.  The unconditional `lifeForms--` makes the outcome depend
on the centre cell's own state. -/
theorem C1_counterexample :
    liveNeighborCount twoNeighborBoard 5 5 = 2 ∧
    twoNeighborBoard 5 5 = 0 ∧
    (ApplyLifeRule twoNeighborGame 5 5).workBoard 5 5 = 0 := by
  refine ⟨by decide, by decide, by decide⟩

/-- C1 (amended): for every interior cell, the value the rule engine writes
depends on the 8-neighbor live count and on the cell's own current state: a
live cell is set alive iff its count is 2 or 3, a dead cell iff its count is
3 or 4 (the 3×3 total is decremented once whether or not the centre is alive). -/
theorem C1_interior_rule (gol : gameOfLife_t) (row col : Nat) (h : Interior row col) :
    (ApplyLifeRule gol row col).workBoard row col = actualNextState gol.board row col := by
  rw [ApplyLifeRule_workBoard, if_pos ⟨h, rfl, rfl⟩]
  have hr : 0 < row := h.1
  have hc : 0 < col := h.2.2.1
  unfold lifeRuleVal actualNextState
  rw [lifeFormsCount_eq gol.board row col hr hc]
  by_cases hb : gol.board row col = 0
  · simp only [hb, ne_eq, not_true_eq_false, if_false, ite_false, Nat.add_zero]
    split_ifs <;> omega
  · simp only [hb, ne_eq, not_false_eq_true, if_true, ite_true]
    split_ifs <;> omega

/-- C1 (witness): the amended rule instantiated at `twoNeighborGame`, cell (5,5). -/
theorem C1_interior_rule_witness :
    (ApplyLifeRule twoNeighborGame 5 5).workBoard 5 5
      = actualNextState twoNeighborGame.board 5 5 :=
  C1_interior_rule twoNeighborGame 5 5 (by decide)

/-- C2: while the simulation is paused, the per-iteration tick phase is the
identity, so any number of tick phases leaves the displayed board unchanged. -/
theorem C2_paused_tick_noop (gol : gameOfLife_t) (k : Nat) (h : gol.simulationPaused = true) :
    (tickPhase^[k] gol).board = gol.board := by
  have hfix : tickPhase gol = gol := by
    unfold tickPhase
    simp [h]
  rw [Function.iterate_fixed hfix k]

/-- A paused copy of the startup state, for instantiating C2. -/
def pausedGame : gameOfLife_t := { initialGameOfLife with simulationPaused := true }

/-- C2 (witness): five tick phases on a concrete paused state change nothing. -/
theorem C2_paused_tick_noop_witness :
    (tickPhase^[5] pausedGame).board = pausedGame.board :=
  C2_paused_tick_noop pausedGame 5 rfl

/-- C3: handling any `SDL_MOUSEBUTTONDOWN` event runs the full `UpdateBoard`
(rule pass over all interior cells plus the `memcpy` commit) on the game
state unconditionally — in particular also while the simulation is paused,
so a click advances the board by one generation. -/
theorem C3_mouse_click_advances_generation (button d1 d2 d3 : Nat) (w : World) :
    (handleMouseButtonDown button d1 d2 d3 w).game = UpdateBoard w.game := by
  unfold handleMouseButtonDown
  split_ifs <;> rfl

/-- C4: a fully dead board (both grids) stays fully dead after any number of
generation steps. -/
theorem C4_dead_board_stays_dead (gol : gameOfLife_t) (h : AllDead gol) (k : Nat) :
    AllDead (UpdateBoard^[k] gol) := by
  induction k with
  | zero => exact h
  | succ n ih =>
      rw [Function.iterate_succ_apply']
      exact AllDead_step _ ih

/-- C4 (witness): after two generation steps from the all-dead startup state,
an arbitrary probe cell is still dead. -/
theorem C4_dead_board_stays_dead_witness :
    ((UpdateBoard^[2]) initialGameOfLife).board 7 9 = 0 :=
  (C4_dead_board_stays_dead initialGameOfLife ⟨fun _ _ => rfl, fun _ _ => rfl⟩ 2).1 7 9

/-- C5: every loop iteration delays by `1000 / deltaTime` with the division
unguarded, and 60 consecutive minus-key events from the default rate of 60
drive `deltaTime` to 0, the divisor of that computation. -/
theorem C5_delay_divisor_reaches_zero :
    (((EvaluateKey SDLK_MINUS)^[60]) initialGameOfLife).deltaTime = 0 ∧
    (∀ gol : gameOfLife_t, loopDelayMs gol = 1000 / gol.deltaTime) := by
  refine ⟨by decide, fun gol => rfl⟩

/-- C6: on a state whose tick rate is a valid byte, the minus key decreases
it by exactly 1 and the plus key increases it by exactly 1, modulo 256 and
with no clamping: decrementing 0 yields 255 and incrementing 255 yields 0. -/
theorem C6_speed_keys_mod256 (gol : gameOfLife_t) (h : gol.deltaTime < 256) :
    (EvaluateKey SDLK_MINUS gol).deltaTime
        = (if gol.deltaTime = 0 then 255 else gol.deltaTime - 1) ∧
    (EvaluateKey SDLK_PLUS gol).deltaTime
        = (if gol.deltaTime = 255 then 0 else gol.deltaTime + 1) := by
  unfold EvaluateKey SDLK_MINUS SDLK_PLUS SDLK_p
  norm_num
  constructor <;> split_ifs <;> omega

/-- C6 (witness): the wraparound cases at the two ends. -/
theorem C6_speed_keys_mod256_witness :
    (EvaluateKey SDLK_MINUS { initialGameOfLife with deltaTime := 0 }).deltaTime = 255 ∧
    (EvaluateKey SDLK_PLUS { initialGameOfLife with deltaTime := 255 }).deltaTime = 0 :=
  ⟨((C6_speed_keys_mod256 { initialGameOfLife with deltaTime := 0 } (by decide)).1).trans
      (by decide),
   ((C6_speed_keys_mod256 { initialGameOfLife with deltaTime := 255 } (by decide)).2).trans
      (by decide)⟩

/-- C7: a generation step never writes a boundary entry of the work (next)
buffer: after `UpdateBoard`, every boundary entry of the work board holds
exactly the value it held before the step. -/
theorem C7_boundary_workBoard_retained (gol : gameOfLife_t) (r c : Nat) (h : Boundary r c) :
    (UpdateBoard gol).workBoard r c = gol.workBoard r c := by
  rw [UpdateBoard_workBoard]
  simp [Boundary_not_Interior r c h]

/-- A state whose work board holds a nonzero (stale) value at boundary cell (0,7). -/
def stainedGame : gameOfLife_t :=
  { initialGameOfLife with workBoard := writeCell (fun _ _ => 0) 0 7 5 }

/-- C7 (witness): the stale boundary value 5 at (0,7) survives a generation step. -/
theorem C7_boundary_workBoard_retained_witness :
    (UpdateBoard stainedGame).workBoard 0 7 = stainedGame.workBoard 0 7 :=
  C7_boundary_workBoard_retained stainedGame 0 7 (Or.inl rfl)

/-- C8: starting from `main`'s zero-initialized work board (then seeded by
`InitializeSimulation`, which never touches the work board), after one or
more committed generation steps every boundary cell of the displayed board
is dead, and stays dead. -/
theorem C8_boundary_dead_after_first_commit (stream : Nat → Nat) (k r c : Nat)
    (hk : 1 ≤ k) (h : Boundary r c) :
    ((UpdateBoard^[k]) (InitializeSimulation stream initialGameOfLife)).board r c = 0 := by
  obtain ⟨n, rfl⟩ : ∃ n, k = n + 1 := ⟨k - 1, by omega⟩
  have hwork : ∀ m r' c', Boundary r' c' →
      ((UpdateBoard^[m]) (InitializeSimulation stream initialGameOfLife)).workBoard r' c' = 0 := by
    intro m
    induction m with
    | zero =>
        intro r' c' _
        rw [Function.iterate_zero_apply, InitializeSimulation, runSeed_workBoard]
        rfl
    | succ m ih =>
        intro r' c' hb
        rw [Function.iterate_succ_apply', UpdateBoard_workBoard]
        simp [Boundary_not_Interior r' c' hb]
        exact ih r' c' hb
  rw [Function.iterate_succ_apply', UpdateBoard_board]
  simp [Boundary_not_Interior r c h]
  exact hwork n r c h

/-- C8 (witness): after the first committed step of a concrete seeded run,
boundary cell (0,3) of the displayed board is dead. -/
theorem C8_boundary_dead_after_first_commit_witness :
    ((UpdateBoard^[1]) (InitializeSimulation (fun _ => 0) initialGameOfLife)).board 0 3 = 0 :=
  C8_boundary_dead_after_first_commit (fun _ => 0) 1 0 3 (Nat.le_refl 1) (Or.inl rfl)

/-- C9: a left click overwrites exactly the `r`, `g`, `b` components of the
foreground color with the three drawn bytes, leaving its alpha and the whole
background color untouched; a right click does the same to the background
color, leaving the foreground color untouched. -/
theorem C9_click_color_mutation (w : World) (d1 d2 d3 : Nat) :
    (handleMouseButtonDown SDL_BUTTON_LEFT d1 d2 d3 w).gameColors
        = { r := d1 % 256, g := d2 % 256, b := d3 % 256, a := w.gameColors.a } ∧
    (handleMouseButtonDown SDL_BUTTON_LEFT d1 d2 d3 w).backgroundColor = w.backgroundColor ∧
    (handleMouseButtonDown SDL_BUTTON_RIGHT d1 d2 d3 w).backgroundColor
        = { r := d1 % 256, g := d2 % 256, b := d3 % 256, a := w.backgroundColor.a } ∧
    (handleMouseButtonDown SDL_BUTTON_RIGHT d1 d2 d3 w).gameColors = w.gameColors := by
  unfold handleMouseButtonDown SDL_BUTTON_LEFT SDL_BUTTON_RIGHT
  norm_num

/-- C10: seeding assigns every cell of the board its own draw: cell (x, y)
(column-major flat index `BOARD_SIDE * y + x`) is set alive iff its draw —
`random() % 10`, an integer in [0, 9] — equals 0, and dead otherwise. -/
theorem C10_seed_density (stream : Nat → Nat) (gol : gameOfLife_t) (x y : Nat)
    (hx : x < BOARD_SIDE) (hy : y < BOARD_SIDE) :
    (InitializeSimulation stream gol).board x y
        = (if stream (BOARD_SIDE * y + x) % 10 = 0 then 1 else 0) ∧
    stream (BOARD_SIDE * y + x) % 10 < 10 := by
  constructor
  · rw [InitializeSimulation, runSeed_board stream _ gol x y hx]
    have hmem : BOARD_SIDE * y + x ∈ List.range (BOARD_SIDE * BOARD_SIDE) := by
      rw [List.mem_range]
      unfold BOARD_SIDE at *
      omega
    simp [hmem]
  · exact Nat.mod_lt _ (by norm_num)

/-- C10 (witness): with the identity stream, flat index 3 draws 3, so cell
(3,0) starts dead. -/
theorem C10_seed_density_witness :
    (InitializeSimulation (fun i => i) initialGameOfLife).board 3 0 = 0 :=
  ((C10_seed_density (fun i => i) initialGameOfLife 3 0 (by decide) (by decide)).1).trans
    (by decide)
